import Mathlib

/-!
Verification of `twisted/trial/_asyncrunner.py`: a shallow embedding of the
suite/decorator infrastructure (`TestSuite.run`, `TestDecorator`, `decorate`,
`iterateTests`, `_BrokenIDTestCaseAdapter.id`,
`_ForceGarbageCollectionDecorator.run`) together with theorems settling the
specified properties.

Modelling conventions:
- A tree of tests is the inductive `Test`: a `leaf` is a non-iterable test
  case; a `suite` is an iterable container of children.  Python object
  identity of a suite is modelled by the `oid : Nat` field: `_clearSuite`
  plus `addTest` mutate the same Python object, so the rebuilt suite keeps
  its `oid`.
- Mutable state is passed explicitly; a Python method that may raise is
  modelled with an explicit raised flag or `Option`.
- Python return values are explicit: a function body with no `return`
  statement returns `None`, modelled as `none : Option _`.
-/

/-- A test tree: `leaf` is a non-iterable test case carrying its payload,
`suite` is an iterable suite whose `oid` models Python object identity. -/
inductive Test (α : Type) where
  | leaf (payload : α)
  | suite (oid : Nat) (children : List (Test α))

/-- A test is a leaf exactly when Python `iter(test)` raises `TypeError`. -/
def Test.isLeaf {α : Type} : Test α → Bool
  | .leaf _ => true
  | .suite _ _ => false

/-- Member-wise induction principle for the nested inductive `Test`. -/
theorem Test.memInduction {α : Type} {motive : Test α → Prop}
    (hleaf : ∀ a, motive (.leaf a))
    (hsuite : ∀ i ts, (∀ t ∈ ts, motive t) → motive (.suite i ts)) :
    ∀ t, motive t
  | .leaf a => hleaf a
  | .suite i ts =>
    hsuite i ts (fun t ht =>
      have : sizeOf t < sizeOf (Test.suite i ts) := by
        have h := List.sizeOf_lt_of_mem ht
        simp only [Test.suite.sizeOf_spec]
        omega
      Test.memInduction hleaf hsuite t)
termination_by t => sizeOf t

mutual

/-- Embedding of `decorate(test, decorator)` (`_asyncrunner.py` lines
116-144): a non-iterable test is a leaf and `decorator(test)` is returned;
a suite is cleared in place (`_clearSuite`) and each snapshotted child is
decorated and appended back with `addTest`, so the same suite object (same
`oid`) is returned. -/
def decorate {α : Type} : Test α → (Test α → Test α) → Test α
  | .leaf a, d => d (.leaf a)
  | .suite i ts, d => .suite i (decorateList ts d)
  termination_by t _ => sizeOf t

/-- The `for case in tests: test.addTest(decorate(case, decorator))` loop of
`decorate`, child by child. -/
def decorateList {α : Type} : List (Test α) → (Test α → Test α) → List (Test α)
  | [], _ => []
  | t :: ts, d => decorate t d :: decorateList ts d
  termination_by ts _ => sizeOf ts

end

mutual

/-- Embedding of `decorate` with the decorator call instrumented: the
decorator threads an explicit state `σ`, exactly at the two call sites of
the source (`return decorator(test)` for a leaf; recursion for a suite).
Used to observe how often and on which arguments `decorator` is invoked. -/
def decorateSt {α σ : Type} : Test α → (Test α → σ → Test α × σ) → σ → Test α × σ
  | .leaf a, d, s => d (.leaf a) s
  | .suite i ts, d, s =>
    match decorateListSt ts d s with
    | (ts2, s2) => (.suite i ts2, s2)
  termination_by t _ _ => sizeOf t

/-- The child loop of `decorateSt`, threading the decorator state left to
right in source order. -/
def decorateListSt {α σ : Type} :
    List (Test α) → (Test α → σ → Test α × σ) → σ → List (Test α) × σ
  | [], _, s => ([], s)
  | t :: ts, d, s =>
    match decorateSt t d s with
    | (t2, s2) =>
      match decorateListSt ts d s2 with
      | (ts2, s3) => (t2 :: ts2, s3)
  termination_by ts _ _ => sizeOf ts

end

mutual

/-- Embedding of `iterateTests(testSuiteOrCase)` (`_asyncrunner.py` lines
213-224): a non-iterable argument is yielded itself; otherwise every child
is recursed into and its leaves are yielded in order. -/
def iterateTests {α : Type} : Test α → List (Test α)
  | .leaf a => [.leaf a]
  | .suite _ ts => iterateTestsList ts
  termination_by t => sizeOf t

/-- The `for test in suite: for subtest in iterateTests(test): yield subtest`
loop of `iterateTests`. -/
def iterateTestsList {α : Type} : List (Test α) → List (Test α)
  | [] => []
  | t :: ts => iterateTests t ++ iterateTestsList ts
  termination_by ts => sizeOf ts

end

mutual

/-- Specification-side definition: the full pre-order traversal of a test
tree (every node, parents before children, children left to right).  The
leaves in pre-order are then `(preOrder t).filter Test.isLeaf`; this is the
yardstick against which `iterateTests` is compared. -/
def preOrder {α : Type} : Test α → List (Test α)
  | .leaf a => [.leaf a]
  | .suite i ts => .suite i ts :: preOrderList ts
  termination_by t => sizeOf t

/-- Pre-order traversal of a forest, left to right. -/
def preOrderList {α : Type} : List (Test α) → List (Test α)
  | [] => []
  | t :: ts => preOrder t ++ preOrderList ts
  termination_by ts => sizeOf ts

end

/-- Embedding of `TestSuite.run(result)` (`_asyncrunner.py` lines 59-69):
children run in insertion order; before each child `result.shouldStop` is
read and, when true, the loop breaks; finally `result` is returned.  A child
is an effect on the result state; `shouldStop` is read from that state.  The
function is total: the loop itself raises no exception. -/
def TestSuite.run {ρ : Type} : List (ρ → ρ) → (ρ → Bool) → ρ → ρ
  | [], _, result => result
  | test :: rest, shouldStop, result =>
    if shouldStop result then result
    else TestSuite.run rest shouldStop (test result)

/-- Running every child unconditionally in order (no stop check); used to
state that the `shouldStop` check is the only early-exit path. -/
def runAll {ρ : Type} : List (ρ → ρ) → ρ → ρ
  | [], result => result
  | test :: rest, result => runAll rest (test result)

/-- Lifting a child that mutates only the payload of a result to a child of
a result carrying a Python object identity in its first component: a Python
test mutates the result object it is handed but never changes which object
it is. -/
def liftChild {π : Type} (c : π → π) : Nat × π → Nat × π
  | (i, p) => (i, c p)

/-- Modelled from the spec: `reporter._AdaptedReporter(original, test)` is
not under `src/`; per sections 4.2 and 6 of the spec it wraps a result and
re-attributes reported outcomes to its `attributeTo` argument.  `original`
is the wrapped result, `attributeTo` the test (here: the decorator class)
that outcomes are attributed to. -/
structure AdaptedReporter (ρ τ : Type) where
  original : ρ
  attributeTo : τ

/-- Modelled from the spec: the error-reporting operation of the result
adapter.  A result is modelled as the list of `(attributed test, error)`
entries it has recorded; the adapter records the outcome against
`attributeTo`, discarding the innermost test argument. -/
def AdaptedReporter.addError {τ ε : Type} (a : AdaptedReporter (List (τ × ε)) τ)
    (_innermost : τ) (err : ε) : AdaptedReporter (List (τ × ε)) τ :=
  ⟨a.original ++ [(a.attributeTo, err)], a.attributeTo⟩

/-- Embedding of `TestDecorator` (`_asyncrunner.py` lines 73-101): the
wrapped test is its `run` method (`_originalTest.run`, taking the reporter
it is handed and producing a Python return value `V`), and `cls` is
`self.__class__`. -/
structure TestDecorator (ρ τ V : Type) where
  originalRun : AdaptedReporter ρ τ → V
  cls : τ

/-- Embedding of `TestDecorator.run(result)` (lines 94-101): returns
`self._originalTest.run(reporter._AdaptedReporter(result, self.__class__))`. -/
def TestDecorator.run {ρ τ V : Type} (d : TestDecorator ρ τ V) (result : ρ) : V :=
  d.originalRun ⟨result, d.cls⟩

/-- Embedding of `TestDecorator.__call__(result)` (lines 85-91): returns
`self.run(result)`. -/
def TestDecorator.call {ρ τ V : Type} (d : TestDecorator ρ τ V) (result : ρ) : V :=
  d.run result

/-- The wrapped pyunit case seen by `_BrokenIDTestCaseAdapter`: its
`shortDescription()` result (`none` models Python `None`) and its own raw
`id()` string. -/
structure PyUnitCase where
  shortDescription : Option String
  caseId : String

/-- Embedding of `_BrokenIDTestCaseAdapter.id` (`_asyncrunner.py` lines
170-177): `testID = self._originalTest.shortDescription()`; if it is not
`None` return it, else return `self._originalTest.id()`. -/
def brokenIDAdapterId (originalTest : PyUnitCase) : String :=
  match originalTest.shortDescription with
  | some testID => testID
  | none => originalTest.caseId

/-- The process-wide `_logObserver` as the garbage-collection decorator uses
it: `capturing` is whether `_add` has installed it on the log, `buffered`
the errors it currently holds (`getErrors` returns them, `flushErrors`
clears them, `_remove` uninstalls). -/
structure LogObserver (ε : Type) where
  capturing : Bool
  buffered : List ε

/-- The drain loop `for error in _logObserver.getErrors():
result.addError(self, error)` of `_ForceGarbageCollectionDecorator.run`.
`addError` returning `none` models the call raising; the loop then stops
with the raised flag set and the result as mutated so far. -/
def drainErrors {τ ε ρ : Type} (addError : ρ → τ → ε → Option ρ) (self : τ) :
    List ε → ρ → Bool × ρ
  | [], r => (false, r)
  | e :: es, r =>
    match addError r self e with
    | some r2 => drainErrors addError self es r2
    | none => (true, r)

/-- The observable outcome of one `_ForceGarbageCollectionDecorator.run`
call: whether an exception propagated out of it, the final state of the
process-wide log observer, the final result state, and the Python return
value of the call. -/
structure GCRunOutcome (ε ρ V : Type) where
  raised : Bool
  obs : LogObserver ε
  result : ρ
  retVal : Option V

/-- Embedding of `_ForceGarbageCollectionDecorator.run(result)`
(`_asyncrunner.py` lines 188-196), step by step and with no handler around
any step, exactly as in the source:
`gc.collect()`; `TestDecorator.run(self, result)` with its return value
discarded; `_logObserver._add()`; `gc.collect()`; the drain loop; then
`_logObserver.flushErrors()` and `_logObserver._remove()`.  `gc1`/`gc2` are
the errors the two collection sweeps log (appended to the observer only
while it is capturing); `wrapped` is the effect and return value of the
delegated `TestDecorator.run`; `addError` may raise (`none`).  The method
body has no `return` statement, so on completion the Python return value is
`None`; when the drain raises, the exception propagates before the flush
and remove steps are reached. -/
def forceGarbageCollectionRun {τ ε ρ V : Type} (addError : ρ → τ → ε → Option ρ)
    (self : τ) (wrapped : ρ → ρ × V) (gc1 gc2 : List ε)
    (obs : LogObserver ε) (result : ρ) : GCRunOutcome ε ρ V :=
  let obs1 : LogObserver ε :=
    if obs.capturing then ⟨true, obs.buffered ++ gc1⟩ else obs
  let result1 := (wrapped result).1
  let obs2 : LogObserver ε := ⟨true, obs1.buffered⟩
  let obs3 : LogObserver ε := ⟨true, obs2.buffered ++ gc2⟩
  match drainErrors addError self obs3.buffered result1 with
  | (true, result2) => ⟨true, obs3, result2, none⟩
  | (false, result2) => ⟨false, ⟨false, []⟩, result2, none⟩

/-- Modelled from the spec: the error taxonomy of section 7
(`twisted.python.components` adaptation machinery is not under `src/`). -/
inductive TrialError where
  | noAdapterError
  | unadaptableTestError
deriving DecidableEq

/-- Modelled from the spec: a value offered for adaptation, abstracted to
whether it already satisfies the Capability Contract and whether the
Adapter Registry holds a registration matching its shape. -/
structure Candidate where
  providesContract : Bool
  adaptable : Bool
deriving DecidableEq

/-- Modelled from the spec, section 4.1: `adapt(instance)` returns the
instance unchanged when it already satisfies the Capability Contract, wraps
it when a registration matches its shape, and otherwise fails with
`NoAdapterError`. -/
def adapt (v : Candidate) : Except TrialError Candidate :=
  if v.providesContract then .ok v
  else if v.adaptable then .ok { v with providesContract := true }
  else .error .noAdapterError

/-- Modelled from the spec, sections 4.2 and 7: constructing a Decorator
Base adapts its argument; with a value that does not satisfy the Capability
Contract and is not adaptable the construction fails with
`UnadaptableTestError`, surfaced at construction time. -/
def mkTestDecorator (v : Candidate) : Except TrialError Candidate :=
  match adapt v with
  | .ok w => .ok w
  | .error _ => .error .unadaptableTestError

/-- A concrete decorator over `Test Nat` used to instantiate universally
quantified statements: it wraps every argument into a leaf, as a decorator
produces a decorated (non-iterable) test case. -/
def dNat : Test Nat → Test Nat
  | .leaf a => .leaf (a + 1)
  | .suite _ _ => .leaf 0

/-- A non-iterable test is yielded by `iterateTests` as the one-element
sequence containing exactly itself. -/
theorem iterateTests_of_isLeaf {α : Type} (t : Test α) (h : t.isLeaf = true) :
    iterateTests t = [t] := by
  cases t with
  | leaf a => simp [iterateTests]
  | suite i ts => simp [Test.isLeaf] at h

/-- `iterateTests` computes the pre-order leaves: the full pre-order
traversal restricted to leaves. -/
theorem iterateTests_eq_preOrder_filter {α : Type} (t : Test α) :
    iterateTests t = (preOrder t).filter (fun x => x.isLeaf) := by
  induction t using Test.memInduction with
  | hleaf a => simp [iterateTests, preOrder, Test.isLeaf]
  | hsuite i ts ih =>
    have hlist : ∀ l : List (Test α),
        (∀ x ∈ l, iterateTests x = (preOrder x).filter (fun y => y.isLeaf)) →
        iterateTestsList l = (preOrderList l).filter (fun y => y.isLeaf) := by
      intro l
      induction l with
      | nil => intro _; simp [iterateTestsList, preOrderList]
      | cons t2 ts2 ih2 =>
        intro hmem
        simp only [iterateTestsList, preOrderList, List.filter_append]
        rw [hmem t2 (by simp), ih2 (fun x hx => hmem x (by simp [hx]))]
    simp [iterateTests, preOrder, Test.isLeaf, hlist ts ih]

/-- Everything `iterateTests` yields is a leaf; suite nodes are never
yielded. -/
theorem mem_iterateTests_isLeaf {α : Type} (t : Test α) :
    ∀ x ∈ iterateTests t, x.isLeaf = true := by
  intro x hx
  rw [iterateTests_eq_preOrder_filter] at hx
  simpa using List.of_mem_filter hx

/-- The child loop of `decorate` maps `decorate` over the snapshot of the
children. -/
theorem decorateList_eq_map {α : Type} (ts : List (Test α)) (d : Test α → Test α) :
    decorateList ts d = ts.map (fun t => decorate t d) := by
  induction ts with
  | nil => simp [decorateList]
  | cons t ts ih => simp [decorateList, ih]

/-- When the decorator turns leaves into leaves (a decorated test case is
again non-iterable), decorating maps the decorator over the pre-order
leaves: count and relative order of the leaves are preserved. -/
theorem iterateTests_decorate {α : Type} (t : Test α) (d : Test α → Test α)
    (hd : ∀ x, (d x).isLeaf = true) :
    iterateTests (decorate t d) = (iterateTests t).map d := by
  induction t using Test.memInduction with
  | hleaf a => simp [decorate, iterateTests, iterateTests_of_isLeaf _ (hd _)]
  | hsuite i ts ih =>
    have hlist : ∀ l : List (Test α),
        (∀ x ∈ l, iterateTests (decorate x d) = (iterateTests x).map d) →
        iterateTestsList (decorateList l d) = (iterateTestsList l).map d := by
      intro l
      induction l with
      | nil => intro _; simp [iterateTestsList, decorateList]
      | cons t2 ts2 ih2 =>
        intro hmem
        simp only [decorateList, iterateTestsList, List.map_append]
        rw [hmem t2 (by simp), ih2 (fun x hx => hmem x (by simp [hx]))]
    simp [decorate, iterateTests, hlist ts ih]

/-- The instrumented `decorateSt`, run with a decorator that logs each
argument it is invoked on, produces the same tree as `decorate` and a log
that is exactly the pre-order leaf sequence: the decorator is invoked
exactly once per leaf, in order, and on nothing else. -/
theorem decorateSt_log {α : Type} (t : Test α) (d : Test α → Test α)
    (s0 : List (Test α)) :
    decorateSt t (fun x s => (d x, s ++ [x])) s0 =
      (decorate t d, s0 ++ iterateTests t) := by
  induction t using Test.memInduction generalizing s0 with
  | hleaf a => simp [decorateSt, decorate, iterateTests]
  | hsuite i ts ih =>
    have hlist : ∀ l : List (Test α),
        (∀ x ∈ l, ∀ s1 : List (Test α),
          decorateSt x (fun y s => (d y, s ++ [y])) s1 =
            (decorate x d, s1 ++ iterateTests x)) →
        ∀ s1 : List (Test α),
          decorateListSt l (fun y s => (d y, s ++ [y])) s1 =
            (decorateList l d, s1 ++ iterateTestsList l) := by
      intro l
      induction l with
      | nil => intro _ s1; simp [decorateListSt, decorateList, iterateTestsList]
      | cons t2 ts2 ih2 =>
        intro hmem s1
        simp only [decorateListSt, decorateList, iterateTestsList]
        rw [hmem t2 (by simp) s1, ih2 (fun x hx => hmem x (by simp [hx]))]
        simp [List.append_assoc]
    simp [decorateSt, decorate, iterateTests, hlist ts ih s0]

/-- Draining with a result whose `addError` appends and never raises: every
buffered error is recorded, attributed to `self`, in order, and the drain
does not raise. -/
theorem drainErrors_append {τ ε : Type} (self : τ) (es : List ε)
    (r : List (τ × ε)) :
    drainErrors (fun r2 t e => some (r2 ++ [(t, e)])) self es r =
      (false, r ++ es.map (fun e => (self, e))) := by
  induction es generalizing r with
  | nil => simp [drainErrors]
  | cons e es ih => simp [drainErrors, ih, List.append_assoc]

/-- The suite run loop with no stop request runs every child, in order. -/
theorem TestSuite_run_of_no_stop {ρ : Type} (tests : List (ρ → ρ))
    (shouldStop : ρ → Bool) (h : ∀ x, shouldStop x = false) (r : ρ) :
    TestSuite.run tests shouldStop r = runAll tests r := by
  induction tests generalizing r with
  | nil => simp [TestSuite.run, runAll]
  | cons t ts ih => simp [TestSuite.run, runAll, h, ih]

/-- The suite run loop hands back the very result object it was given:
children mutate the payload of the result, never its identity. -/
theorem TestSuite_run_fst {π : Type} (cs : List (π → π))
    (shouldStop : Nat × π → Bool) (i : Nat) (p : π) :
    (TestSuite.run (cs.map liftChild) shouldStop (i, p)).1 = i := by
  induction cs generalizing p with
  | nil => simp [TestSuite.run]
  | cons c cs ih =>
    simp only [List.map_cons, TestSuite.run]
    by_cases h : shouldStop (i, p)
    · simp [h]
    · simp [h, liftChild, ih]

/-- Characterization of `forceGarbageCollectionRun` by the outcome of the
drain loop: the buffer drained is whatever the observer held when `_add`
ran (plus the first sweep when it was already capturing) plus the second
sweep; a raising drain leaves the observer installed and unflushed, a
completed drain is followed by flush and remove. -/
theorem forceGCRun_eq {τ ε ρ V : Type} (addError : ρ → τ → ε → Option ρ)
    (self : τ) (wrapped : ρ → ρ × V) (gc1 gc2 : List ε)
    (obs : LogObserver ε) (result : ρ) :
    forceGarbageCollectionRun addError self wrapped gc1 gc2 obs result =
      match drainErrors addError self
          ((if obs.capturing then obs.buffered ++ gc1 else obs.buffered) ++ gc2)
          (wrapped result).1 with
      | (true, result2) =>
        ⟨true, ⟨true, (if obs.capturing then obs.buffered ++ gc1
                       else obs.buffered) ++ gc2⟩, result2, none⟩
      | (false, result2) => ⟨false, ⟨false, []⟩, result2, none⟩ := by
  cases hc : obs.capturing <;> simp [forceGarbageCollectionRun, hc]

/-- C1: the claim that the collector cleanup steps (flushErrors then remove)
execute unconditionally is false on the code: `run` has no guaranteed-cleanup
block, so when `result.addError` raises during the drain step the collector
is left capturing and unflushed.  Concrete input: a clean observer, a second
sweep logging the single error `5`, and a result whose `addError` raises. -/
theorem gc_cleanup_unconditional_cex :
    (forceGarbageCollectionRun (fun _ _ _ => (none : Option (List (Nat × Nat))))
      0 (fun r => (r, (0 : Nat))) [] [5] ⟨false, []⟩ []).raised = true ∧
    (forceGarbageCollectionRun (fun _ _ _ => (none : Option (List (Nat × Nat))))
      0 (fun r => (r, (0 : Nat))) [] [5] ⟨false, []⟩ []).obs.capturing = true ∧
    (forceGarbageCollectionRun (fun _ _ _ => (none : Option (List (Nat × Nat))))
      0 (fun r => (r, (0 : Nat))) [] [5] ⟨false, []⟩ []).obs.buffered = [5] :=
  ⟨rfl, rfl, rfl⟩

/-- C1 (amended): in every run of the Forced-Collection Decorator in which
the drain step does not raise, the collector is flushed and deregistered
before `run` returns; when adding a captured error to the result raises,
the flush and deregistration are skipped and the collector is left in a
capturing state while the exception propagates. -/
theorem gc_cleanup_iff_drain_succeeds {τ ε ρ V : Type}
    (addError : ρ → τ → ε → Option ρ) (self : τ) (wrapped : ρ → ρ × V)
    (gc1 gc2 : List ε) (obs : LogObserver ε) (r : ρ) :
    ((forceGarbageCollectionRun addError self wrapped gc1 gc2 obs r).raised = false →
      (forceGarbageCollectionRun addError self wrapped gc1 gc2 obs r).obs =
        ⟨false, []⟩) ∧
    ((forceGarbageCollectionRun addError self wrapped gc1 gc2 obs r).raised = true →
      (forceGarbageCollectionRun addError self wrapped gc1 gc2 obs r).obs.capturing =
        true) := by
  rw [forceGCRun_eq]
  cases hd : drainErrors addError self
      ((if obs.capturing then obs.buffered ++ gc1 else obs.buffered) ++ gc2)
      (wrapped r).1 with
  | mk b r2 => cases b <;> simp

/-- Witness for the amended C1 at a concrete input where the drain succeeds:
an appending, never-raising `addError`, one captured error. -/
theorem gc_cleanup_iff_drain_succeeds_witness :
    (forceGarbageCollectionRun
      (fun (r : List (Nat × Nat)) (t e : Nat) => some (r ++ [(t, e)]))
      0 (fun r => (r, (0 : Nat))) [] [5] ⟨false, []⟩ []).raised = false ∧
    (forceGarbageCollectionRun
      (fun (r : List (Nat × Nat)) (t e : Nat) => some (r ++ [(t, e)]))
      0 (fun r => (r, (0 : Nat))) [] [5] ⟨false, []⟩ []).obs = ⟨false, []⟩ := by
  have h :
      (forceGarbageCollectionRun
        (fun (r : List (Nat × Nat)) (t e : Nat) => some (r ++ [(t, e)]))
        0 (fun r => (r, (0 : Nat))) [] [5] ⟨false, []⟩ []).raised = false := rfl
  exact ⟨h, (gc_cleanup_iff_drain_succeeds
    (fun (r : List (Nat × Nat)) (t e : Nat) => some (r ++ [(t, e)]))
    0 (fun r => (r, (0 : Nat))) [] [5] ⟨false, []⟩ []).1 h⟩

/-- C2: constructing the Decorator Base on a value that neither satisfies
the Capability Contract nor is adaptable fails at construction time with
`UnadaptableTestError` (the construction itself returns the error; nothing
is deferred to run time). -/
theorem mkTestDecorator_unadaptable_fails (v : Candidate)
    (h1 : v.providesContract = false) (h2 : v.adaptable = false) :
    mkTestDecorator v = .error .unadaptableTestError := by
  simp [mkTestDecorator, adapt, h1, h2]

/-- Witness for C2: the concrete candidate that neither satisfies the
contract nor is adaptable. -/
theorem mkTestDecorator_unadaptable_fails_witness :
    (Candidate.mk false false).providesContract = false ∧
    (Candidate.mk false false).adaptable = false ∧
    mkTestDecorator ⟨false, false⟩ = .error .unadaptableTestError :=
  ⟨rfl, rfl, mkTestDecorator_unadaptable_fails ⟨false, false⟩ rfl rfl⟩

/-- C3: for every suite `S` and decorator `d` (a decorator yields decorated,
non-iterable test cases), `decorate(S, d)` returns the very same suite
object (same `oid`), and its `iterateTests` sequence is the decorator mapped
over the original leaf sequence: exactly as many leaves as before, in the
same relative order. -/
theorem decorate_preserves_identity_and_leaves {α : Type} (i : Nat)
    (ts : List (Test α)) (d : Test α → Test α)
    (hd : ∀ x, (d x).isLeaf = true) :
    (∃ ts2, decorate (.suite i ts) d = .suite i ts2) ∧
    iterateTests (decorate (.suite i ts) d) =
      (iterateTests (.suite i ts)).map d ∧
    (iterateTests (decorate (.suite i ts) d)).length =
      (iterateTests (.suite i ts)).length := by
  refine ⟨⟨decorateList ts d, by simp [decorate]⟩,
    iterateTests_decorate _ d hd, ?_⟩
  rw [iterateTests_decorate _ d hd]
  simp

/-- Witness for C3: a concrete two-level suite and the leaf-producing
decorator `dNat`. -/
theorem decorate_preserves_identity_and_leaves_witness :
    (∀ x : Test Nat, (dNat x).isLeaf = true) ∧
    ((∃ ts2, decorate (.suite 5 [.leaf 1, .suite 6 [.leaf 2]]) dNat =
        .suite 5 ts2) ∧
     iterateTests (decorate (.suite 5 [.leaf 1, .suite 6 [.leaf 2]]) dNat) =
       (iterateTests (.suite 5 [.leaf 1, .suite 6 [.leaf 2]])).map dNat ∧
     (iterateTests (decorate (.suite 5 [.leaf 1, .suite 6 [.leaf 2]]) dNat)).length =
       (iterateTests (.suite 5 [.leaf 1, .suite 6 [.leaf 2]])).length) := by
  have hd : ∀ x : Test Nat, (dNat x).isLeaf = true := by
    intro x; cases x <;> rfl
  exact ⟨hd, decorate_preserves_identity_and_leaves 5
    [.leaf 1, .suite 6 [.leaf 2]] dNat hd⟩

/-- C4: the suite run loop executes children in insertion order with the
`shouldStop` check before each child: if `shouldStop` is already true no
child is invoked and the result is returned unchanged; if it becomes true
after the first child only the first child has run; and if it never holds,
every child runs in order (the check is the only early-exit path).  The loop
is a total function: it raises no exception of its own. -/
theorem TestSuite_run_shouldStop_check {ρ : Type} (tests : List (ρ → ρ))
    (shouldStop : ρ → Bool) (r : ρ) (t : ρ → ρ) (ts : List (ρ → ρ)) :
    (shouldStop r = true → TestSuite.run tests shouldStop r = r) ∧
    (shouldStop r = false → shouldStop (t r) = true →
      TestSuite.run (t :: ts) shouldStop r = t r) ∧
    ((∀ x, shouldStop x = false) →
      TestSuite.run tests shouldStop r = runAll tests r) := by
  refine ⟨?_, ?_, fun h => TestSuite_run_of_no_stop tests shouldStop h r⟩
  · intro h
    cases tests with
    | nil => rfl
    | cons t2 ts2 => simp [TestSuite.run, h]
  · intro h1 h2
    simp only [TestSuite.run, h1, if_false]
    cases ts with
    | nil => rfl
    | cons t2 ts2 => simp [TestSuite.run, h2]

/-- Witness for C4: children append their index to the result; the three
stop behaviors at concrete inputs. -/
theorem TestSuite_run_shouldStop_check_witness :
    TestSuite.run [fun l => l ++ [0], fun l => l ++ [1]]
      (fun _ => true) ([] : List Nat) = [] ∧
    TestSuite.run [fun l => l ++ [0], fun l => l ++ [1]]
      (fun l => !l.isEmpty) ([] : List Nat) = [0] ∧
    TestSuite.run [fun l => l ++ [0], fun l => l ++ [1]]
      (fun _ => false) ([] : List Nat) =
      runAll [fun l => l ++ [0], fun l => l ++ [1]] [] := by
  refine ⟨?_, ?_, ?_⟩
  · exact (TestSuite_run_shouldStop_check
      [fun l => l ++ [0], fun l => l ++ [1]] (fun _ => true) []
      (fun l => l ++ [0]) [fun l => l ++ [1]]).1 rfl
  · exact (TestSuite_run_shouldStop_check
      [fun l => l ++ [0], fun l => l ++ [1]] (fun l => !l.isEmpty) []
      (fun l => l ++ [0]) [fun l => l ++ [1]]).2.1 rfl rfl
  · exact (TestSuite_run_shouldStop_check
      [fun l => l ++ [0], fun l => l ++ [1]] (fun _ => false) []
      (fun l => l ++ [0]) [fun l => l ++ [1]]).2.2 (fun _ => rfl)

/-- C5: running `decorate` with the decorator instrumented to log its
arguments shows the decorator is invoked exactly once per leaf of the tree,
in pre-order (the log equals the `iterateTests` leaf sequence, every entry
a leaf — never a suite node), while producing exactly `decorate`; and an
empty suite decorates to itself with no invocation at all. -/
theorem decorate_invokes_once_per_leaf {α : Type} (t : Test α) (i : Nat)
    (d : Test α → Test α) :
    (decorateSt t (fun x s => (d x, s ++ [x])) []).1 = decorate t d ∧
    (decorateSt t (fun x s => (d x, s ++ [x])) []).2 = iterateTests t ∧
    (∀ x ∈ (decorateSt t (fun x s => (d x, s ++ [x])) []).2, x.isLeaf = true) ∧
    decorate (.suite i ([] : List (Test α))) d = .suite i [] ∧
    (decorateSt (.suite i ([] : List (Test α))) (fun x s => (d x, s ++ [x])) []).2 = [] := by
  have h := decorateSt_log t d []
  refine ⟨by rw [h], by rw [h]; simp, ?_, by simp [decorate, decorateList], ?_⟩
  · intro x hx
    rw [h] at hx
    simp only [List.nil_append] at hx
    exact mem_iterateTests_isLeaf t x hx
  · rw [decorateSt_log]
    simp [iterateTests, iterateTestsList]

/-- Witness for C5: a suite with two leaves; the log membership hypothesis
is discharged at the first leaf. -/
theorem decorate_invokes_once_per_leaf_witness :
    Test.leaf 1 ∈ (decorateSt (Test.suite 7 [Test.leaf (1 : Nat), Test.leaf 2])
      (fun x s => (dNat x, s ++ [x])) []).2 ∧
    Test.isLeaf (Test.leaf (1 : Nat)) = true := by
  have hm : Test.leaf 1 ∈ (decorateSt (Test.suite 7 [Test.leaf (1 : Nat), Test.leaf 2])
      (fun x s => (dNat x, s ++ [x])) []).2 := by
    rw [decorateSt_log]
    simp [iterateTests, iterateTestsList]
  exact ⟨hm, (decorate_invokes_once_per_leaf
    (Test.suite 7 [Test.leaf (1 : Nat), Test.leaf 2]) 9 dNat).2.2.1
    (Test.leaf 1) hm⟩

/-- C6: `iterateTests` on a non-iterable leaf yields exactly that leaf; on
any tree it yields exactly the leaves of the full pre-order traversal, left
to right, and everything it yields is a leaf — never a suite node. -/
theorem iterateTests_yields_preOrder_leaves {α : Type} (t : Test α) (a : α) :
    iterateTests (Test.leaf a) = [Test.leaf a] ∧
    iterateTests t = (preOrder t).filter (fun x => x.isLeaf) ∧
    (∀ x ∈ iterateTests t, x.isLeaf = true) :=
  ⟨by simp [iterateTests], iterateTests_eq_preOrder_filter t,
    mem_iterateTests_isLeaf t⟩

/-- Witness for C6: a concrete nested suite; the membership hypothesis is
discharged at one of its leaves. -/
theorem iterateTests_yields_preOrder_leaves_witness :
    Test.leaf 2 ∈ iterateTests (Test.suite 3 [Test.suite 4 [], Test.leaf (2 : Nat)]) ∧
    Test.isLeaf (Test.leaf (2 : Nat)) = true := by
  have hm : Test.leaf 2 ∈
      iterateTests (Test.suite 3 [Test.suite 4 [], Test.leaf (2 : Nat)]) := by
    simp [iterateTests, iterateTestsList]
  exact ⟨hm, (iterateTests_yields_preOrder_leaves
    (Test.suite 3 [Test.suite 4 [], Test.leaf (2 : Nat)]) 0).2.2
    (Test.leaf 2) hm⟩

/-- C7: with a clean collector and a result whose `addError` records and
does not raise, a Forced-Collection run adds every error captured after the
post-run collection sweep to the result, attributed to the decorator `self`
(not the wrapped test), in order and none dropped — `gc2` captured errors
produce exactly `gc2.length` recorded entries (two errors, two calls) — and
the collector ends flushed and deregistered. -/
theorem gc_adds_all_captured_errors {τ ε V : Type} (self : τ)
    (wrapped : List (τ × ε) → List (τ × ε) × V) (gc1 gc2 : List ε)
    (r : List (τ × ε)) :
    forceGarbageCollectionRun (fun r2 t e => some (r2 ++ [(t, e)])) self
        wrapped gc1 gc2 ⟨false, []⟩ r =
      ⟨false, ⟨false, []⟩, (wrapped r).1 ++ gc2.map (fun e => (self, e)), none⟩ := by
  rw [forceGCRun_eq]
  simp [drainErrors_append]

/-- C9: `__call__(result)` of the Decorator Base is `run(result)`; the
default `run` invokes the wrapped run with the result adapter built from
the result and the decorator class; and that adapter records a reported
outcome against the decorator class, not against the innermost test it was
reported for. -/
theorem TestDecorator_call_eq_run {ρ τ ε V : Type} (d : TestDecorator ρ τ V)
    (result : ρ) (rep : List (τ × ε)) (innermost : τ) (err : ε) :
    TestDecorator.call d result = TestDecorator.run d result ∧
    TestDecorator.run d result = d.originalRun ⟨result, d.cls⟩ ∧
    AdaptedReporter.addError ⟨rep, d.cls⟩ innermost err =
      ⟨rep ++ [(d.cls, err)], d.cls⟩ :=
  ⟨rfl, rfl, rfl⟩

/-- C10: the Forced-Collection run always returns `None`, discarding the
delegated return value; the Decorator Base `run` returns whatever the
wrapped run returned; and the suite run loop returns the very result object
it was handed (same identity component). -/
theorem run_return_value_contrast {τ ε ρ V ρ2 τ2 V2 π : Type}
    (addError : ρ → τ → ε → Option ρ) (self : τ) (wrapped : ρ → ρ × V)
    (gc1 gc2 : List ε) (obs : LogObserver ε) (r : ρ)
    (originalRun : AdaptedReporter ρ2 τ2 → V2) (cls : τ2) (res : ρ2)
    (cs : List (π → π)) (shouldStop : Nat × π → Bool) (i : Nat) (p : π) :
    (forceGarbageCollectionRun addError self wrapped gc1 gc2 obs r).retVal =
      none ∧
    TestDecorator.run ⟨originalRun, cls⟩ res = originalRun ⟨res, cls⟩ ∧
    (TestSuite.run (cs.map liftChild) shouldStop (i, p)).1 = i := by
  refine ⟨?_, rfl, TestSuite_run_fst cs shouldStop i p⟩
  rw [forceGCRun_eq]
  cases hd : drainErrors addError self
      ((if obs.capturing then obs.buffered ++ gc1 else obs.buffered) ++ gc2)
      (wrapped r).1 with
  | mk b r2 => cases b <;> simp

/-- C8: the broken-identity adapter reports the short description of the
wrapped case as its id when that description is present (not `None`), and
otherwise falls back to the wrapped case's own raw id. -/
theorem brokenIDAdapterId_spec (c : PyUnitCase) :
    (∀ s, c.shortDescription = some s → brokenIDAdapterId c = s) ∧
    (c.shortDescription = none → brokenIDAdapterId c = c.caseId) := by
  constructor
  · intro s hs; simp [brokenIDAdapterId, hs]
  · intro hn; simp [brokenIDAdapterId, hn]

/-- Witness for C8: one case with a description, one without. -/
theorem brokenIDAdapterId_spec_witness :
    (PyUnitCase.mk (some "a short description") "raw.case.id").shortDescription =
      some "a short description" ∧
    brokenIDAdapterId ⟨some "a short description", "raw.case.id"⟩ =
      "a short description" ∧
    (PyUnitCase.mk none "raw.case.id").shortDescription = none ∧
    brokenIDAdapterId ⟨none, "raw.case.id"⟩ = "raw.case.id" :=
  ⟨rfl, (brokenIDAdapterId_spec ⟨some "a short description", "raw.case.id"⟩).1
    "a short description" rfl,
   rfl, (brokenIDAdapterId_spec ⟨none, "raw.case.id"⟩).2 rfl⟩
